import Mathlib

/-!
Shallow embedding of the myuchip Chip-8 interpreter core.

Machine integers are modelled as `Nat` with explicit reductions:
`% 256` for `u8` wrapping, `% 65536` for `u16` wrapping, and bitwise
operators (`&&&`, `>>>`, `^^^`) where the source uses them.  Fallible
operations (the stack assertions, the word-read bounds check, the
unimplemented-opcode fallback) are modelled with `Option` / `Except`.

Source layout mirrored here:
- `src/cpu/opcode.rs`   : the field extractors `opKK`, `opN`, `opNNN`, `opX`, `opY`
- `src/bus/mod.rs`      : `mask_address`, `checked_mask_address`, `read_byte`,
                          `read_word`, `write_byte`
- `src/cpu/regfile.rs`  : `RegFile`, `timerDefault`, `regFileDefault`,
                          `advance_pc`, `timerDecrement`
- `src/cpu/mod.rs`      : `Stack` (as `stackPush` / `stackPop`), the opcode
                          handlers, `OPCODE_DESCS`, `match_opcode`, `step`, `tick`
- `src/lib.rs`          : `SPRITES`, `coreNewMem` (memory image after `Core::new`)
- `src/display/mod.rs`  : display constants
-/

namespace Myuchip

/-! ### Opcode decoder (src/cpu/opcode.rs) -/

/-- Low byte immediate `kk` (bits 0-7): `raw & 0xFF`. -/
def opKK (raw : Nat) : Nat := raw &&& 0xFF

/-- Low nibble `n` (bits 0-3): `raw & 0xF`. -/
def opN (raw : Nat) : Nat := raw &&& 0xF

/-- Address immediate `nnn` (bits 0-11): `raw & 0xFFF`. -/
def opNNN (raw : Nat) : Nat := raw &&& 0xFFF

/-- Register index `x` (bits 8-11): `raw.wrapping_shr(8) & 0xF`. -/
def opX (raw : Nat) : Nat := (raw >>> 8) &&& 0xF

/-- Register index `y` (bits 4-7): `raw.wrapping_shr(4) & 0xF`. -/
def opY (raw : Nat) : Nat := (raw >>> 4) &&& 0xF

/-! ### Bus and memory (src/bus) -/

/-- `Memory::SIZE`. -/
def MEM_SIZE : Nat := 0x1000

/-- `Address::MAX = Memory::SIZE - 1`. -/
def ADDR_MAX : Nat := MEM_SIZE - 1

/-- Memory is a 4096-byte array; modelled as a function from addresses to
byte values (all accesses in the source are masked into range first). -/
abbrev Mem := Nat → Nat

/-- `Address::mask_address`: unchecked mask for byte accesses. -/
def mask_address (a : Nat) : Nat := a &&& ADDR_MAX

/-- `Address::checked_mask_address`: returns the masked address if a 16-bit
access will not go out of bounds, `none` otherwise. -/
def checked_mask_address (a : Nat) : Option Nat :=
  let masked := a &&& ADDR_MAX
  if masked = ADDR_MAX then none else some masked

/-- `Bus::read_byte`. -/
def read_byte (m : Mem) (a : Nat) : Nat := m (mask_address a)

/-- `Bus::write_byte`. -/
def write_byte (m : Mem) (a v : Nat) : Mem := Function.update m (mask_address a) v

/-- `Bus::read_word`: `u16::from_be_bytes` of the two bytes at the checked
masked address; `none` models the fatal "Word address out of bounds" abort. -/
def read_word (m : Mem) (a : Nat) : Option Nat :=
  (checked_mask_address a).map fun masked => 256 * m masked + m (masked + 1)

/-! ### Register file (src/cpu/regfile.rs) -/

/-- `NUM_GPRS`. -/
def NUM_GPRS : Nat := 16

/-- `VF`: index of the flag register. -/
def VF : Nat := 15

/-- Chip-8 register file; GPRs modelled as a function from register index to
byte value. -/
structure RegFile where
  pc : Nat
  gprs : Nat → Nat
  index : Nat
  delay_timer : Nat
  sound_timer : Nat

/-- `Timer::default()` is `u8::MAX`. -/
def timerDefault : Nat := 255

/-- `Core::ROM_START`. -/
def ROM_START : Nat := 0x200

/-- `RegFile::default()`. -/
def regFileDefault : RegFile :=
  { pc := ROM_START
    gprs := fun _ => 0
    index := 0
    delay_timer := timerDefault
    sound_timer := timerDefault }

/-- `RegFile::advance_pc`: `pc = pc.wrapping_add(2)`. -/
def advance_pc (r : RegFile) : RegFile := { r with pc := (r.pc + 2) % 65536 }

/-- `Timer::decrement`: decrements the counter only if it is not 0. -/
def timerDecrement (t : Nat) : Nat := if 0 < t then t - 1 else t

/-! ### Call stack (src/cpu/mod.rs, struct Stack) -/

/-- `Stack::MAX_DEPTH`. -/
def STACK_MAX_DEPTH : Nat := 16

/-- `Stack::push`: appends if below capacity; `none` models the failed
`assert!(len < MAX_DEPTH)`. The list holds the stack bottom-first, matching
the `Vec` in the source. -/
def stackPush (s : List Nat) (v : Nat) : Option (List Nat) :=
  if s.length < STACK_MAX_DEPTH then some (s ++ [v]) else none

/-- `Stack::pop`: removes and returns the last element; `none` models the
failed `assert!(len > 0)`. -/
def stackPop (s : List Nat) : Option (Nat × List Nat) :=
  match s.getLast? with
  | none => none
  | some v => some (v, s.dropLast)

/-- Iterated `Stack::push`, stopping at the first failure. -/
def pushAll (s : List Nat) : List Nat → Option (List Nat)
  | [] => some s
  | v :: vs =>
    match stackPush s v with
    | none => none
    | some s2 => pushAll s2 vs

/-! ### Display (src/display/mod.rs) -/

/-- `Display::WIDTH`. -/
def DISPLAY_WIDTH : Nat := 64

/-- `Display::HEIGHT`. -/
def DISPLAY_HEIGHT : Nat := 32

/-- `Display::COLOR_WHITE`. -/
def COLOR_WHITE : Nat := 0xFFFFFFFF

/-- Framebuffer of `u32` pixel values, modelled as a function from linear
pixel index to value. -/
abbrev Disp := Nat → Nat

/-! ### CPU state, events, fatal conditions (src/cpu/mod.rs) -/

inductive CpuEvent where
  | Draw
  | WaitForKey
deriving DecidableEq, Repr

/-- The fatal conditions the source reports by aborting. -/
inductive Fatal where
  | unimplementedOpcode (raw : Nat)
  | stackOverflow
  | stackUnderflow
  | wordAddressOutOfBounds
deriving DecidableEq, Repr

structure Cpu where
  mem : Mem
  display : Disp
  regfile : RegFile
  stack : List Nat

/-- Result of one opcode handler: the next state and an optional event, or a
fatal condition. -/
abbrev HandlerResult := Except Fatal (Cpu × Option CpuEvent)

/-! ### Opcode handlers (src/cpu/mod.rs), in alphabetical source order -/

/-- `Cpu::add_imm`: `Vx += kk` with `u8` wrapping. -/
def add_imm (c : Cpu) (raw : Nat) : HandlerResult :=
  let x := opX raw
  let g := c.regfile.gprs
  .ok ({ c with regfile := { c.regfile with
           gprs := Function.update g x ((g x + opKK raw) % 256) } }, none)

/-- `Cpu::add_reg`: `Vx += Vy, VF = carry`; the destructuring assignment
writes `Vx` first, then `VF`. -/
def add_reg (c : Cpu) (raw : Nat) : HandlerResult :=
  let x := opX raw
  let g := c.regfile.gprs
  let result := (g x + g (opY raw)) % 256
  let has_overflowed := 256 ≤ g x + g (opY raw)
  .ok ({ c with regfile := { c.regfile with
           gprs := Function.update (Function.update g x result) VF
                     (if has_overflowed then 1 else 0) } }, none)

/-- `Cpu::addi`: `I += Vx` with `u16` wrapping. -/
def addi (c : Cpu) (raw : Nat) : HandlerResult :=
  .ok ({ c with regfile := { c.regfile with
           index := (c.regfile.index + c.regfile.gprs (opX raw)) % 65536 } }, none)

/-- `Cpu::and`: `Vx = Vx AND Vy`. -/
def and (c : Cpu) (raw : Nat) : HandlerResult :=
  let g := c.regfile.gprs
  .ok ({ c with regfile := { c.regfile with
           gprs := Function.update g (opX raw) (g (opX raw) &&& g (opY raw)) } }, none)

/-- `Cpu::call`: pushes the (already advanced) pc and jumps to `nnn`. -/
def call (c : Cpu) (raw : Nat) : HandlerResult :=
  match stackPush c.stack c.regfile.pc with
  | none => .error .stackOverflow
  | some s =>
    .ok ({ c with stack := s, regfile := { c.regfile with pc := opNNN raw } }, none)

/-- `Cpu::cls`: fills the framebuffer with 0. -/
def cls (c : Cpu) (_raw : Nat) : HandlerResult :=
  .ok ({ c with display := fun _ => 0 }, none)

/-- `u8::reverse_bits`, written out bit by bit (only the low 8 bits of the
argument are observed, as for a `u8`). -/
def reverseBits8 (b : Nat) : Nat :=
  (b / 1 % 2) * 128 + (b / 2 % 2) * 64 + (b / 4 % 2) * 32 + (b / 8 % 2) * 16 +
  (b / 16 % 2) * 8 + (b / 32 % 2) * 4 + (b / 64 % 2) * 2 + (b / 128 % 2) * 1

/-- Inner loop body of `Cpu::drw` for one pixel column `i` of one sprite row:
computes the display index with coordinate wraparound, ORs the collision
test into the accumulator, and XORs the pixel into the framebuffer. -/
def drwStep (pixels x y n : Nat) (acc : Disp × Bool) (i : Nat) : Disp × Bool :=
  let display_idx := DISPLAY_WIDTH * ((y + n) % DISPLAY_HEIGHT) + ((x + i) % DISPLAY_WIDTH)
  let pixel := COLOR_WHITE * ((pixels >>> i) &&& 1)
  let old_pixel := acc.1 display_idx
  (Function.update acc.1 display_idx (old_pixel ^^^ pixel),
   acc.2 || (pixel &&& old_pixel == COLOR_WHITE))

/-- Outer loop body of `Cpu::drw` for sprite row `n`: reads the row byte at
`index + n` (u16 wrap, then bus masking), bit-reverses it, and folds the
8 pixel columns. -/
def drwRow (mem : Mem) (index x y : Nat) (acc : Disp × Bool) (n : Nat) : Disp × Bool :=
  let pixels := reverseBits8 (read_byte mem ((index + n) % 65536))
  (List.range 8).foldl (drwStep pixels x y n) acc

/-- `Cpu::drw`: XOR-blits the `n`-row sprite at `[I]` to `(Vx, Vy)`, sets
`VF` to the collision flag, and reports a `Draw` event. -/
def drw (c : Cpu) (raw : Nat) : HandlerResult :=
  let index := c.regfile.index
  let x := c.regfile.gprs (opX raw)
  let y := c.regfile.gprs (opY raw)
  let acc := (List.range (opN raw)).foldl (drwRow c.mem index x y) (c.display, false)
  .ok ({ c with
          display := acc.1
          regfile := { c.regfile with
            gprs := Function.update c.regfile.gprs VF (if acc.2 then 1 else 0) } },
       some CpuEvent.Draw)

/-- `Cpu::jp`: `pc = nnn`. -/
def jp (c : Cpu) (raw : Nat) : HandlerResult :=
  .ok ({ c with regfile := { c.regfile with pc := opNNN raw } }, none)

/-- `Cpu::jp_idx`: `pc = nnn.wrapping_add(V0)`. -/
def jp_idx (c : Cpu) (raw : Nat) : HandlerResult :=
  .ok ({ c with regfile := { c.regfile with
           pc := (opNNN raw + c.regfile.gprs 0) % 65536 } }, none)

/-- `Cpu::ldb`: writes the three BCD digits of `Vx` at `[I]`, `[I+1]`, `[I+2]`. -/
def ldb (c : Cpu) (raw : Nat) : HandlerResult :=
  let index := c.regfile.index
  let vx := c.regfile.gprs (opX raw)
  let digits := [vx / 100, vx / 10 % 10, vx % 10]
  let m := (List.range 3).foldl
    (fun m i => write_byte m ((index + i) % 65536) (digits.getD i 0)) c.mem
  .ok ({ c with mem := m }, none)

/-- `Cpu::lddt`: delay timer = `Vx`. -/
def lddt (c : Cpu) (raw : Nat) : HandlerResult :=
  .ok ({ c with regfile := { c.regfile with
           delay_timer := c.regfile.gprs (opX raw) } }, none)

/-- `Cpu::ldi_imm`: `I = nnn`. -/
def ldi_imm (c : Cpu) (raw : Nat) : HandlerResult :=
  .ok ({ c with regfile := { c.regfile with index := opNNN raw } }, none)

/-- `Cpu::ldi_mem`: stores `V0..=Vx` to memory starting at `[I]`. -/
def ldi_mem (c : Cpu) (raw : Nat) : HandlerResult :=
  let index := c.regfile.index
  let m := (List.range (opX raw + 1)).foldl
    (fun m i => write_byte m ((index + i) % 65536) (c.regfile.gprs i)) c.mem
  .ok ({ c with mem := m }, none)

/-- `Cpu::ldv_dt`: `Vx` = delay timer. -/
def ldv_dt (c : Cpu) (raw : Nat) : HandlerResult :=
  .ok ({ c with regfile := { c.regfile with
           gprs := Function.update c.regfile.gprs (opX raw) c.regfile.delay_timer } }, none)

/-- `Cpu::ldv_imm`: `Vx = kk`. -/
def ldv_imm (c : Cpu) (raw : Nat) : HandlerResult :=
  .ok ({ c with regfile := { c.regfile with
           gprs := Function.update c.regfile.gprs (opX raw) (opKK raw) } }, none)

/-- `Cpu::ldv_key`: rewinds pc by 2 (`u16` wrapping) and reports
`WaitForKey`; nothing else is touched. -/
def ldv_key (c : Cpu) (_raw : Nat) : HandlerResult :=
  .ok ({ c with regfile := { c.regfile with
           pc := (c.regfile.pc + 65536 - 2) % 65536 } }, some CpuEvent.WaitForKey)

/-- `Cpu::ldv_mem`: loads `V0..=Vx` from memory starting at `[I]`. -/
def ldv_mem (c : Cpu) (raw : Nat) : HandlerResult :=
  let index := c.regfile.index
  let g := (List.range (opX raw + 1)).foldl
    (fun g i => Function.update g i (read_byte c.mem ((index + i) % 65536))) c.regfile.gprs
  .ok ({ c with regfile := { c.regfile with gprs := g } }, none)

/-- `Cpu::ldv_reg`: `Vx = Vy`. -/
def ldv_reg (c : Cpu) (raw : Nat) : HandlerResult :=
  .ok ({ c with regfile := { c.regfile with
           gprs := Function.update c.regfile.gprs (opX raw)
                     (c.regfile.gprs (opY raw)) } }, none)

/-- `Cpu::or`: `Vx = Vx OR Vy`. -/
def or (c : Cpu) (raw : Nat) : HandlerResult :=
  let g := c.regfile.gprs
  .ok ({ c with regfile := { c.regfile with
           gprs := Function.update g (opX raw) (g (opX raw) ||| g (opY raw)) } }, none)

/-- `Cpu::ret`: pops into pc. -/
def ret (c : Cpu) (_raw : Nat) : HandlerResult :=
  match stackPop c.stack with
  | none => .error .stackUnderflow
  | some (v, s) =>
    .ok ({ c with stack := s, regfile := { c.regfile with pc := v } }, none)

/-- `Cpu::skip`: advances pc by 2 when the condition holds. -/
def skipIf (c : Cpu) (condition : Bool) : Cpu :=
  if condition then { c with regfile := advance_pc c.regfile } else c

/-- `Cpu::se_imm`: skip if `Vx == kk`. -/
def se_imm (c : Cpu) (raw : Nat) : HandlerResult :=
  .ok (skipIf c (c.regfile.gprs (opX raw) == opKK raw), none)

/-- `Cpu::se_reg`: skip if `Vx == Vy`. -/
def se_reg (c : Cpu) (raw : Nat) : HandlerResult :=
  .ok (skipIf c (c.regfile.gprs (opX raw) == c.regfile.gprs (opY raw)), none)

/-- `Cpu::shl`: `Vx <<= 1` (u8 truncation), `VF = bit shifted out of the
top`, computed in the source as `vx.reverse_bits() & 1 != 0`; `Vx` is
written first, then `VF`. -/
def shl (c : Cpu) (raw : Nat) : HandlerResult :=
  let x := opX raw
  let vx := c.regfile.gprs x
  let result := vx * 2 % 256
  let has_overflowed := reverseBits8 vx &&& 1 ≠ 0
  .ok ({ c with regfile := { c.regfile with
           gprs := Function.update (Function.update c.regfile.gprs x result) VF
                     (if has_overflowed then 1 else 0) } }, none)

/-- `Cpu::shr`: `Vx >>= 1`, `VF = vx & 1 != 0`; `Vx` is written first,
then `VF`. -/
def shr (c : Cpu) (raw : Nat) : HandlerResult :=
  let x := opX raw
  let vx := c.regfile.gprs x
  let result := vx / 2
  let has_overflowed := vx &&& 1 ≠ 0
  .ok ({ c with regfile := { c.regfile with
           gprs := Function.update (Function.update c.regfile.gprs x result) VF
                     (if has_overflowed then 1 else 0) } }, none)

/-- `Cpu::skp`: placeholder in the source, condition hard-coded `false`. -/
def skp (c : Cpu) (_raw : Nat) : HandlerResult :=
  .ok (skipIf c false, none)

/-- `Cpu::sknp`: placeholder in the source, condition hard-coded `true`. -/
def sknp (c : Cpu) (_raw : Nat) : HandlerResult :=
  .ok (skipIf c true, none)

/-- `Cpu::sne_imm`: skip if `Vx != kk`. -/
def sne_imm (c : Cpu) (raw : Nat) : HandlerResult :=
  .ok (skipIf c (c.regfile.gprs (opX raw) != opKK raw), none)

/-- `Cpu::sne_reg`: skip if `Vx != Vy`. -/
def sne_reg (c : Cpu) (raw : Nat) : HandlerResult :=
  .ok (skipIf c (c.regfile.gprs (opX raw) != c.regfile.gprs (opY raw)), none)

/-- `Cpu::sub`: `Vx -= Vy` (u8 wrap), `VF = !borrow`; `Vx` first, then `VF`. -/
def sub (c : Cpu) (raw : Nat) : HandlerResult :=
  let x := opX raw
  let g := c.regfile.gprs
  let result := (g x + 256 - g (opY raw)) % 256
  let has_overflowed := g x < g (opY raw)
  .ok ({ c with regfile := { c.regfile with
           gprs := Function.update (Function.update g x result) VF
                     (if has_overflowed then 0 else 1) } }, none)

/-- `Cpu::subn`: `Vx = Vy - Vx` (u8 wrap), `VF = !borrow`; `Vx` first,
then `VF`. -/
def subn (c : Cpu) (raw : Nat) : HandlerResult :=
  let x := opX raw
  let g := c.regfile.gprs
  let result := (g (opY raw) + 256 - g x) % 256
  let has_overflowed := g (opY raw) < g x
  .ok ({ c with regfile := { c.regfile with
           gprs := Function.update (Function.update g x result) VF
                     (if has_overflowed then 0 else 1) } }, none)

/-- `Cpu::xor`: `Vx = Vx XOR Vy`. -/
def xor (c : Cpu) (raw : Nat) : HandlerResult :=
  let g := c.regfile.gprs
  .ok ({ c with regfile := { c.regfile with
           gprs := Function.update g (opX raw) (g (opX raw) ^^^ g (opY raw)) } }, none)

/-! ### Opcode matcher and dispatch (src/cpu/mod.rs) -/

/-- One tag per registered handler, so the descriptor table stays a data
table as in the source. -/
inductive OpTag where
  | cls | ret | jp | call | se_imm | sne_imm | se_reg | ldv_imm | add_imm
  | ldv_reg | or | and | xor | add_reg | sub | shr | subn | shl | sne_reg
  | ldi_imm | jp_idx | drw | skp | sknp | ldv_dt | ldv_key | lddt | addi
  | ldb | ldi_mem | ldv_mem
deriving DecidableEq, Repr

/-- The 31 `(pattern, mask, handler)` descriptors of `Cpu::new`, in
registration order. -/
def OPCODE_DESCS : List (Nat × Nat × OpTag) :=
  [ (0x00E0, 0xFFFF, .cls),
    (0x00EE, 0xFFFF, .ret),
    (0x1000, 0xF000, .jp),
    (0x2000, 0xF000, .call),
    (0x3000, 0xF000, .se_imm),
    (0x4000, 0xF000, .sne_imm),
    (0x5000, 0xF00F, .se_reg),
    (0x6000, 0xF000, .ldv_imm),
    (0x7000, 0xF000, .add_imm),
    (0x8000, 0xF00F, .ldv_reg),
    (0x8001, 0xF00F, .or),
    (0x8002, 0xF00F, .and),
    (0x8003, 0xF00F, .xor),
    (0x8004, 0xF00F, .add_reg),
    (0x8005, 0xF00F, .sub),
    (0x8006, 0xF00F, .shr),
    (0x8007, 0xF00F, .subn),
    (0x800E, 0xF00F, .shl),
    (0x9000, 0xF00F, .sne_reg),
    (0xA000, 0xF000, .ldi_imm),
    (0xB000, 0xF000, .jp_idx),
    (0xD000, 0xF000, .drw),
    (0xE09E, 0xF0FF, .skp),
    (0xE0A1, 0xF0FF, .sknp),
    (0xF007, 0xF0FF, .ldv_dt),
    (0xF00A, 0xF0FF, .ldv_key),
    (0xF015, 0xF0FF, .lddt),
    (0xF01E, 0xF0FF, .addi),
    (0xF033, 0xF0FF, .ldb),
    (0xF055, 0xF0FF, .ldi_mem),
    (0xF065, 0xF0FF, .ldv_mem) ]

/-- `OpcodeMatcher::match_opcode`: first descriptor whose masked opcode
equals its pattern wins; `none` stands for the `Cpu::dummy` fatal fallback. -/
def match_opcode : List (Nat × Nat × OpTag) → Nat → Option OpTag
  | [], _ => none
  | d :: rest, raw => if raw &&& d.2.1 = d.1 then some d.2.2 else match_opcode rest raw

/-- Maps a handler tag to the handler function. -/
def runHandler : OpTag → Cpu → Nat → HandlerResult
  | .cls => cls
  | .ret => ret
  | .jp => jp
  | .call => call
  | .se_imm => se_imm
  | .sne_imm => sne_imm
  | .se_reg => se_reg
  | .ldv_imm => ldv_imm
  | .add_imm => add_imm
  | .ldv_reg => ldv_reg
  | .or => or
  | .and => and
  | .xor => xor
  | .add_reg => add_reg
  | .sub => sub
  | .shr => shr
  | .subn => subn
  | .shl => shl
  | .sne_reg => sne_reg
  | .ldi_imm => ldi_imm
  | .jp_idx => jp_idx
  | .drw => drw
  | .skp => skp
  | .sknp => sknp
  | .ldv_dt => ldv_dt
  | .ldv_key => ldv_key
  | .lddt => lddt
  | .addi => addi
  | .ldb => ldb
  | .ldi_mem => ldi_mem
  | .ldv_mem => ldv_mem

/-- `Cpu::step`: fetch the word at pc, advance pc by 2, dispatch, run the
handler. A failed fetch or an unmatched opcode is a fatal condition (the
latter reporting the raw instruction, as `Cpu::dummy` does). -/
def step (c : Cpu) : HandlerResult :=
  match read_word c.mem c.regfile.pc with
  | none => .error .wordAddressOutOfBounds
  | some raw =>
    let c1 : Cpu := { c with regfile := advance_pc c.regfile }
    match match_opcode OPCODE_DESCS raw with
    | none => .error (.unimplementedOpcode raw)
    | some t => runHandler t c1 raw

/-- `Cpu::tick`: decrements both timers, floored at 0. -/
def tick (c : Cpu) : Cpu :=
  { c with regfile := { c.regfile with
      delay_timer := timerDecrement c.regfile.delay_timer
      sound_timer := timerDecrement c.regfile.sound_timer } }

/-! ### Machine initialization (src/lib.rs) -/

/-- `Core::SPRITES_START`. -/
def SPRITES_START : Nat := 0x50

/-- `Core::SPRITES_SIZE = 5 * 16`. -/
def SPRITES_SIZE : Nat := 80

/-- `Core::MAX_ROM_SIZE`. -/
def MAX_ROM_SIZE : Nat := MEM_SIZE - ROM_START

/-- `Core::SPRITES`: the built-in 16-glyph, 5-bytes-per-glyph font. -/
def SPRITES : List Nat :=
  [ 0xF0, 0x90, 0x90, 0x90, 0xF0,
    0x20, 0x60, 0x20, 0x20, 0x70,
    0xF0, 0x10, 0xF0, 0x80, 0xF0,
    0xF0, 0x10, 0xF0, 0x10, 0xF0,
    0x90, 0x90, 0xF0, 0x10, 0x10,
    0xF0, 0x80, 0xF0, 0x10, 0xF0,
    0xF0, 0x80, 0xF0, 0x90, 0xF0,
    0xF0, 0x10, 0x20, 0x40, 0x40,
    0xF0, 0x90, 0xF0, 0x90, 0xF0,
    0xF0, 0x90, 0xF0, 0x10, 0xF0,
    0xF0, 0x90, 0xF0, 0x90, 0x90,
    0xE0, 0x90, 0xE0, 0x90, 0xE0,
    0xF0, 0x80, 0x80, 0x80, 0xF0,
    0xE0, 0x90, 0x90, 0x90, 0xE0,
    0xF0, 0x80, 0xF0, 0x80, 0xF0,
    0xF0, 0x80, 0xF0, 0x80, 0x80 ]

/-- `<[u8]>::copy_from_slice` of `data` into `m` starting at `start`. -/
def copyFromSlice (m : Mem) (start : Nat) (data : List Nat) : Mem :=
  fun a => if start ≤ a ∧ a < start + data.length then data.getD (a - start) 0 else m a

/-- The memory image built by `Core::new`: zeroed memory, then the font at
`SPRITES_START`, then the first `min (rom.length) MAX_ROM_SIZE` ROM bytes at
`ROM_START`. -/
def coreNewMem (rom : List Nat) : Mem :=
  let len := min rom.length MAX_ROM_SIZE
  copyFromSlice (copyFromSlice (fun _ => 0) SPRITES_START SPRITES) ROM_START (rom.take len)

/-- The full CPU state right after `Core::new`. -/
def coreNewCpu (rom : List Nat) : Cpu :=
  { mem := coreNewMem rom
    display := fun _ => 0
    regfile := regFileDefault
    stack := [] }

/-! ### Derived specification predicates and analysis helpers -/

/-- The fused pair list of the two `drw` loops: one entry per
(sprite row, pixel column). -/
def drwPairs (rows : Nat) : List (Nat × Nat) :=
  (List.range rows).flatMap fun n => (List.range 8).map fun i => (n, i)

/-- Linear framebuffer index targeted by sprite row/column pair `p` when
drawing at `(x, y)`, with coordinate wraparound. -/
def pixIdx (x y : Nat) (p : Nat × Nat) : Nat :=
  DISPLAY_WIDTH * ((y + p.1) % DISPLAY_HEIGHT) + ((x + p.2) % DISPLAY_WIDTH)

/-- The pixel value XORed in by pair `p`: `COLOR_WHITE` times the sprite bit. -/
def pixVal (mem : Mem) (index : Nat) (p : Nat × Nat) : Nat :=
  COLOR_WHITE * ((reverseBits8 (read_byte mem ((index + p.1) % 65536)) >>> p.2) &&& 1)

/-- One fused `drw` loop step on a row/column pair. -/
def drwPairStep (mem : Mem) (index x y : Nat) (acc : Disp × Bool) (p : Nat × Nat) :
    Disp × Bool :=
  drwStep (reverseBits8 (read_byte mem ((index + p.1) % 65536))) x y p.1 acc p.2

/-- The CPU state produced by `drw` (which always succeeds). -/
def drwOut (c : Cpu) (raw : Nat) : Cpu :=
  match drw c raw with
  | .ok p => p.1
  | .error _ => c

/-- Statement of claim C6 (amended) for one state and raw drw instruction:
drawing the same sprite twice restores the framebuffer exactly, and the
second draw's collision flag is 1 exactly when some set sprite pixel targets
a cell that was off before the first draw. -/
def DrwDoubleSpec (c : Cpu) (raw : Nat) : Prop :=
  drw c raw = .ok (drwOut c raw, some CpuEvent.Draw) ∧
  drw (drwOut c raw) raw = .ok (drwOut (drwOut c raw) raw, some CpuEvent.Draw) ∧
  (drwOut (drwOut c raw) raw).display = c.display ∧
  ((drwOut (drwOut c raw) raw).regfile.gprs VF = 1 ↔
    ∃ p ∈ drwPairs (opN raw),
      pixVal c.mem c.regfile.index p = COLOR_WHITE ∧
      c.display (pixIdx (c.regfile.gprs (opX raw)) (c.regfile.gprs (opY raw)) p) = 0)

/-- The concrete machine for the C6 counterexample and witness: a one-row
sprite 0x80 at memory 0, index 0, V0 = V1 = 0, and a framebuffer whose only
lit pixel is at the very cell the sprite's single set pixel targets. -/
def drwCexCpu : Cpu :=
  { mem := fun a => if a = 0 then 0x80 else 0
    display := fun i => if i = 0 then COLOR_WHITE else 0
    regfile := regFileDefault
    stack := [] }

/-- Statement of claim C3 for one machine state and raw instruction: each
flag-setting ALU handler stores the 8-bit wrapped result into `Vx` and then
sets `VF` to the documented flag; the wrapped subtraction results are
characterized over ℤ. -/
def AluSpec (c : Cpu) (raw : Nat) : Prop :=
  let x := opX raw
  let y := opY raw
  let g := c.regfile.gprs
  (add_reg c raw = .ok ({ c with regfile := { c.regfile with
      gprs := Function.update (Function.update g x ((g x + g y) % 256)) VF
                (if 256 ≤ g x + g y then 1 else 0) } }, none)) ∧
  (sub c raw = .ok ({ c with regfile := { c.regfile with
      gprs := Function.update (Function.update g x ((g x + 256 - g y) % 256)) VF
                (if g y ≤ g x then 1 else 0) } }, none)) ∧
  (((g x + 256 - g y) % 256 : Nat) = (((g x : ℤ) - g y) % 256).toNat) ∧
  (subn c raw = .ok ({ c with regfile := { c.regfile with
      gprs := Function.update (Function.update g x ((g y + 256 - g x) % 256)) VF
                (if g x ≤ g y then 1 else 0) } }, none)) ∧
  (((g y + 256 - g x) % 256 : Nat) = (((g y : ℤ) - g x) % 256).toNat) ∧
  (shl c raw = .ok ({ c with regfile := { c.regfile with
      gprs := Function.update (Function.update g x (g x * 2 % 256)) VF
                (g x / 2 ^ 7 % 2) } }, none)) ∧
  (shr c raw = .ok ({ c with regfile := { c.regfile with
      gprs := Function.update (Function.update g x (g x / 2)) VF
                (g x % 2) } }, none))

/-- Projection of the general-purpose registers from a handler result (all
flag-setting ALU handlers return `.ok`). -/
def resultGprs (r : HandlerResult) : Nat → Nat :=
  match r with
  | .ok p => p.1.regfile.gprs
  | .error _ => fun _ => 0

/-- Modelled from the spec: the 35 documented Chip-8 instruction forms as
(pattern, mask) pairs — the spec requires that "all 35 documented opcodes
must be implemented", but does not enumerate them in full; this list is the
canonical set (SYS 0nnn; cls; ret; jp; call; se/sne; ld/add immediates; the
9 register-ALU forms; sne; ld I; jp V0; rnd; drw; skp/sknp; and the 9
Fx-class forms). -/
def DOCUMENTED_FORMS : List (Nat × Nat) :=
  [ (0x0000, 0xF000),
    (0x00E0, 0xFFFF),
    (0x00EE, 0xFFFF),
    (0x1000, 0xF000),
    (0x2000, 0xF000),
    (0x3000, 0xF000),
    (0x4000, 0xF000),
    (0x5000, 0xF00F),
    (0x6000, 0xF000),
    (0x7000, 0xF000),
    (0x8000, 0xF00F),
    (0x8001, 0xF00F),
    (0x8002, 0xF00F),
    (0x8003, 0xF00F),
    (0x8004, 0xF00F),
    (0x8005, 0xF00F),
    (0x8006, 0xF00F),
    (0x8007, 0xF00F),
    (0x800E, 0xF00F),
    (0x9000, 0xF00F),
    (0xA000, 0xF000),
    (0xB000, 0xF000),
    (0xC000, 0xF000),
    (0xD000, 0xF000),
    (0xE09E, 0xF0FF),
    (0xE0A1, 0xF0FF),
    (0xF007, 0xF0FF),
    (0xF00A, 0xF0FF),
    (0xF015, 0xF0FF),
    (0xF018, 0xF0FF),
    (0xF01E, 0xF0FF),
    (0xF029, 0xF0FF),
    (0xF033, 0xF0FF),
    (0xF055, 0xF0FF),
    (0xF065, 0xF0FF) ]

/-! ### Decoder and masking arithmetic lemmas -/

theorem opX_eq (raw : Nat) : opX raw = raw / 256 % 16 := by
  unfold opX
  rw [Nat.and_pow_two_sub_one_eq_mod _ 4, Nat.shiftRight_eq_div_pow]

theorem opY_eq (raw : Nat) : opY raw = raw / 16 % 16 := by
  unfold opY
  rw [Nat.and_pow_two_sub_one_eq_mod _ 4, Nat.shiftRight_eq_div_pow]

theorem opKK_eq (raw : Nat) : opKK raw = raw % 256 := by
  unfold opKK
  rw [Nat.and_pow_two_sub_one_eq_mod _ 8]

theorem opN_eq (raw : Nat) : opN raw = raw % 16 := by
  unfold opN
  rw [Nat.and_pow_two_sub_one_eq_mod _ 4]

theorem opNNN_eq (raw : Nat) : opNNN raw = raw % 4096 := by
  unfold opNNN
  rw [Nat.and_pow_two_sub_one_eq_mod _ 12]

theorem mask_address_eq (a : Nat) : mask_address a = a % 4096 := by
  unfold mask_address ADDR_MAX MEM_SIZE
  rw [Nat.and_pow_two_sub_one_eq_mod _ 12]

/-! ### Claim C10 -/

/-- Claim C10: at machine initialization the delay and sound timers both hold
255 (not 0), pc is 0x200, all 16 general-purpose registers are 0, and the
index register is 0. -/
theorem reset_state_values :
    regFileDefault.delay_timer = 255 ∧ regFileDefault.sound_timer = 255 ∧
    regFileDefault.delay_timer ≠ 0 ∧ regFileDefault.sound_timer ≠ 0 ∧
    regFileDefault.pc = 0x200 ∧ (∀ i, regFileDefault.gprs i = 0) ∧
    regFileDefault.index = 0 :=
  ⟨rfl, rfl, by decide, by decide, rfl, fun _ => rfl, rfl⟩

/-! ### Claim C7 -/

theorem pushAll_ok (vs : List Nat) : ∀ s : List Nat,
    s.length + vs.length ≤ STACK_MAX_DEPTH → pushAll s vs = some (s ++ vs) := by
  induction vs with
  | nil => intro s _; simp [pushAll]
  | cons v vs ih =>
    intro s h
    simp only [List.length_cons, STACK_MAX_DEPTH] at h
    have hlen : s.length < STACK_MAX_DEPTH := by unfold STACK_MAX_DEPTH; omega
    have hrec : (s ++ [v]).length + vs.length ≤ STACK_MAX_DEPTH := by
      simp only [List.length_append, List.length_cons, List.length_nil, STACK_MAX_DEPTH]
      omega
    simp only [pushAll, stackPush, if_pos hlen]
    rw [ih (s ++ [v]) hrec]
    simp

theorem pushAll_overflow (vs : List Nat) : ∀ s : List Nat,
    s.length ≤ STACK_MAX_DEPTH → STACK_MAX_DEPTH < s.length + vs.length →
    pushAll s vs = none := by
  induction vs with
  | nil =>
    intro s hs h
    simp only [List.length_nil, Nat.add_zero, STACK_MAX_DEPTH] at h hs
    omega
  | cons v vs ih =>
    intro s hs h
    simp only [List.length_cons, STACK_MAX_DEPTH] at h hs
    by_cases hlen : s.length < STACK_MAX_DEPTH
    · have h1 : (s ++ [v]).length ≤ STACK_MAX_DEPTH := by
        simp only [List.length_append, List.length_cons, List.length_nil, STACK_MAX_DEPTH]
        unfold STACK_MAX_DEPTH at hlen
        omega
      have h2 : STACK_MAX_DEPTH < (s ++ [v]).length + vs.length := by
        simp only [List.length_append, List.length_cons, List.length_nil, STACK_MAX_DEPTH]
        omega
      simp only [pushAll, stackPush, if_pos hlen]
      exact ih (s ++ [v]) h1 h2
    · simp [pushAll, stackPush, if_neg hlen]

/-- Claim C7: pushing 16 return addresses onto an empty call stack succeeds,
a 17th push is fatal, popping an empty stack is fatal, and for a stack below
capacity pop after push returns the pushed value with the rest unchanged. -/
theorem stack_depth_semantics :
    (∀ vs : List Nat, vs.length = 16 → pushAll [] vs = some vs) ∧
    (∀ vs : List Nat, vs.length = 17 → pushAll [] vs = none) ∧
    stackPop ([] : List Nat) = none ∧
    (∀ (s : List Nat) (v : Nat), s.length < 16 →
      stackPush s v = some (s ++ [v]) ∧ stackPop (s ++ [v]) = some (v, s)) := by
  refine ⟨?_, ?_, rfl, ?_⟩
  · intro vs h
    have := pushAll_ok vs [] (by simp [h, STACK_MAX_DEPTH])
    simpa using this
  · intro vs h
    exact pushAll_overflow vs [] (by simp [STACK_MAX_DEPTH]) (by simp [h, STACK_MAX_DEPTH])
  · intro s v h
    constructor
    · simp only [stackPush, STACK_MAX_DEPTH, if_pos h]
    · simp [stackPop, List.getLast?_concat, List.dropLast_concat]

/-- Witness for C7 at concrete inputs. -/
theorem stack_depth_semantics_witness :
    pushAll [] (List.replicate 16 0) = some (List.replicate 16 0) ∧
    pushAll [] (List.replicate 17 0) = none ∧
    stackPush [1, 2] 3 = some [1, 2, 3] ∧ stackPop [1, 2, 3] = some (3, [1, 2]) :=
  ⟨stack_depth_semantics.1 _ (by simp),
   stack_depth_semantics.2.1 _ (by simp),
   (stack_depth_semantics.2.2.2 [1, 2] 3 (by simp)).1,
   (stack_depth_semantics.2.2.2 [1, 2] 3 (by simp)).2⟩

/-! ### Claim C1 -/

/-- Claim C1 counterexample: at the last valid masked address 0xFFF,
`read_word` raises the fatal out-of-bounds fault (`none`) instead of
wrapping the low byte to address 0; so a fault IS raised, contrary to the
claim. -/
theorem read_word_last_address_faults : read_word (fun _ => 0) 0xFFF = none := by
  decide

theorem checked_mask_address_eq (a : Nat) :
    checked_mask_address a = if a % 4096 = 4095 then none else some (a % 4096) := by
  have h1 : ADDR_MAX = 4095 := by decide
  have h2 : a &&& 4095 = a % 4096 := Nat.and_pow_two_sub_one_eq_mod a 12
  simp only [checked_mask_address, h1, h2]

/-- Claim C1 amended: for every address whose masked value is below 0xFFF,
`read_word` returns the big-endian value composed of the byte at `a mod 4096`
(high) and the byte at `(a+1) mod 4096` (low); when `a mod 4096 = 0xFFF` it
raises the fatal word-address-out-of-bounds fault instead of wrapping. -/
theorem read_word_spec (m : Mem) (a : Nat) :
    (a % 4096 ≠ 4095 →
      read_word m a = some (256 * m (a % 4096) + m ((a + 1) % 4096))) ∧
    (a % 4096 = 4095 → read_word m a = none) := by
  constructor
  · intro h
    have hsucc : (a + 1) % 4096 = a % 4096 + 1 := by omega
    simp only [read_word, checked_mask_address_eq, if_neg h, Option.map, hsucc]
  · intro h
    simp only [read_word, checked_mask_address_eq, if_pos h, Option.map]

/-- Witness for the amended C1 at concrete inputs. -/
theorem read_word_spec_witness :
    read_word (fun _ => 9) 2 = some (256 * 9 + 9) ∧
    read_word (fun _ => 9) 0x1FFF = none :=
  ⟨(read_word_spec (fun _ => 9) 2).1 (by decide),
   (read_word_spec (fun _ => 9) 0x1FFF).2 (by decide)⟩

/-! ### Claim C5 -/

/-- Claim C5 counterexample: after initialization with an empty program,
memory byte 0x000 is 0 while the first font byte is 0xF0 — the font is not
at 0x000-0x04F. -/
theorem font_not_at_address_zero :
    coreNewMem [] 0x000 = 0 ∧ SPRITES.getD 0 0 = 0xF0 ∧
    coreNewMem [] 0x000 ≠ SPRITES.getD 0 0 := by
  refine ⟨by decide, by decide, by decide⟩

/-- Claim C5 amended: after machine initialization, memory bytes
0x050 through 0x09F hold the built-in sprite font, bytes 0x000 through
0x04F are zero, and bytes from 0x200 onward hold the loaded program image
(truncated at the memory boundary). -/
theorem core_init_memory_layout (rom : List Nat) (i : Nat) :
    (i < SPRITES_SIZE → coreNewMem rom (SPRITES_START + i) = SPRITES.getD i 0) ∧
    (i < min rom.length MAX_ROM_SIZE → coreNewMem rom (ROM_START + i) = rom.getD i 0) ∧
    (i < SPRITES_START → coreNewMem rom i = 0) := by
  have hsl : SPRITES.length = 80 := by decide
  have hS : SPRITES_START = 0x50 := rfl
  have hR : ROM_START = 0x200 := rfl
  have hM : MAX_ROM_SIZE = 0xE00 := by decide
  have hlen : (rom.take (min rom.length MAX_ROM_SIZE)).length = min rom.length MAX_ROM_SIZE := by
    simp only [List.length_take]
    omega
  refine ⟨?_, ?_, ?_⟩
  · intro h
    unfold SPRITES_SIZE at h
    have c1 : ¬(ROM_START ≤ SPRITES_START + i ∧
        SPRITES_START + i < ROM_START + min rom.length MAX_ROM_SIZE) := by
      rw [hS, hR, hM]
      omega
    have c2 : SPRITES_START ≤ SPRITES_START + i ∧ SPRITES_START + i < SPRITES_START + 80 := by
      omega
    simp only [coreNewMem, copyFromSlice, hlen, hsl]
    rw [if_neg c1, if_pos c2]
    congr 1
    omega
  · intro h
    have c1 : ROM_START ≤ ROM_START + i ∧ ROM_START + i < ROM_START + min rom.length MAX_ROM_SIZE := by
      omega
    simp only [coreNewMem, copyFromSlice, hlen, hsl]
    rw [if_pos c1]
    have hidx : ROM_START + i - ROM_START = i := by omega
    rw [hidx, List.getD_eq_getElem?_getD, List.getD_eq_getElem?_getD,
      List.getElem?_take_of_lt (by omega)]
  · intro h
    rw [hS] at h
    have c1 : ¬(ROM_START ≤ i ∧ i < ROM_START + min rom.length MAX_ROM_SIZE) := by
      rw [hR, hM]
      omega
    have c2 : ¬(SPRITES_START ≤ i ∧ i < SPRITES_START + 80) := by
      rw [hS]
      omega
    simp only [coreNewMem, copyFromSlice, hlen, hsl]
    rw [if_neg c1, if_neg c2]

/-- Witness for the amended C5 at concrete inputs. -/
theorem core_init_memory_layout_witness :
    coreNewMem [0xAB] (SPRITES_START + 0) = SPRITES.getD 0 0 ∧
    coreNewMem [0xAB] (ROM_START + 0) = [0xAB].getD 0 0 ∧
    coreNewMem [0xAB] 0 = 0 :=
  ⟨(core_init_memory_layout [0xAB] 0).1 (by decide),
   (core_init_memory_layout [0xAB] 0).2.1 (by decide),
   (core_init_memory_layout [0xAB] 0).2.2 (by decide)⟩

/-! ### Claims C3 and C8: ALU flag conventions -/

theorem subFlagEq (a b : Nat) :
    (if a < b then (0 : Nat) else 1) = if b ≤ a then 1 else 0 := by
  rcases Nat.lt_or_ge a b with h | h
  · rw [if_pos h, if_neg (by omega)]
  · rw [if_neg (by omega), if_pos h]

theorem reverseBits8_and_one (v : Nat) : reverseBits8 v &&& 1 = v / 128 % 2 := by
  rw [Nat.and_one_is_mod]
  unfold reverseBits8
  omega

theorem shlFlagEq (v : Nat) :
    (if reverseBits8 v &&& 1 ≠ 0 then (1 : Nat) else 0) = v / 2 ^ 7 % 2 := by
  rw [reverseBits8_and_one]
  have h7 : (2 : Nat) ^ 7 = 128 := by norm_num
  rw [h7]
  rcases Nat.mod_two_eq_zero_or_one (v / 128) with h | h
  · rw [h, if_neg (by omega)]
  · rw [h, if_pos (by omega)]

theorem shrFlagEq (v : Nat) :
    (if v &&& 1 ≠ 0 then (1 : Nat) else 0) = v % 2 := by
  rw [Nat.and_one_is_mod]
  rcases Nat.mod_two_eq_zero_or_one v with h | h
  · rw [h, if_neg (by omega)]
  · rw [h, if_pos (by omega)]

/-- Claim C3: for all register indices and byte-valued register contents,
`add_reg`, `sub`, `subn`, `shl`, `shr` store the 8-bit wrapped result in `Vx`
and set `VF` to exactly the documented carry / NOT-borrow / shifted-out-bit
flag. -/
theorem alu_flag_semantics (c : Cpu) (raw : Nat)
    (hg : ∀ i, c.regfile.gprs i < 256) : AluSpec c raw := by
  have hx := hg (opX raw)
  have hy := hg (opY raw)
  unfold AluSpec
  refine ⟨rfl, ?_, by omega, ?_, by omega, ?_, ?_⟩
  · simp only [sub]
    rw [subFlagEq]
  · simp only [subn]
    rw [subFlagEq]
  · simp only [shl]
    rw [shlFlagEq]
  · simp only [shr]
    rw [shrFlagEq]

/-- Witness for C3 at a concrete state and instruction. -/
theorem alu_flag_semantics_witness :
    (∀ i, (coreNewCpu []).regfile.gprs i < 256) ∧ AluSpec (coreNewCpu []) 0x0120 :=
  ⟨fun _ => by norm_num [coreNewCpu, regFileDefault],
   alu_flag_semantics (coreNewCpu []) 0x0120 (fun _ => by norm_num [coreNewCpu, regFileDefault])⟩

/-- Claim C8: when the target register index x is 0xF, each flag-setting ALU
handler leaves `VF` holding the flag (the `VF` write happens after the result
write to the same register, so the arithmetic result is discarded). -/
theorem flag_register_overwrite (c : Cpu) (raw : Nat) (hx : opX raw = VF) :
    resultGprs (add_reg c raw) VF
      = (if 256 ≤ c.regfile.gprs VF + c.regfile.gprs (opY raw) then 1 else 0) ∧
    resultGprs (sub c raw) VF
      = (if c.regfile.gprs (opY raw) ≤ c.regfile.gprs VF then 1 else 0) ∧
    resultGprs (subn c raw) VF
      = (if c.regfile.gprs VF ≤ c.regfile.gprs (opY raw) then 1 else 0) ∧
    resultGprs (shl c raw) VF = c.regfile.gprs VF / 2 ^ 7 % 2 ∧
    resultGprs (shr c raw) VF = c.regfile.gprs VF % 2 := by
  refine ⟨?_, ?_, ?_, ?_, ?_⟩
  · simp only [resultGprs, add_reg, hx, Function.update_same]
  · simp only [resultGprs, sub, hx, Function.update_same]
    rw [subFlagEq]
  · simp only [resultGprs, subn, hx, Function.update_same]
    rw [subFlagEq]
  · simp only [resultGprs, shl, hx, Function.update_same]
    rw [shlFlagEq]
  · simp only [resultGprs, shr, hx, Function.update_same]
    rw [shrFlagEq]

/-- Witness for C8 at a concrete state and instruction with x = 0xF. -/
theorem flag_register_overwrite_witness :
    opX 0x8F20 = VF ∧ resultGprs (shr (coreNewCpu []) 0x8F20) VF
      = (coreNewCpu []).regfile.gprs VF % 2 :=
  ⟨by decide, (flag_register_overwrite (coreNewCpu []) 0x8F20 (by decide)).2.2.2.2⟩

/-! ### Claims C4 and C2: dispatch -/

theorem match_opcode_first (raw : Nat) :
    ∀ (l : List (Nat × Nat × OpTag)) (i : Nat) (h : i < l.length),
      raw &&& (l.get ⟨i, h⟩).2.1 = (l.get ⟨i, h⟩).1 →
      (∀ (j : Nat) (hj : j < l.length), j < i →
        ¬(raw &&& (l.get ⟨j, hj⟩).2.1 = (l.get ⟨j, hj⟩).1)) →
      match_opcode l raw = some (l.get ⟨i, h⟩).2.2 := by
  intro l
  induction l with
  | nil =>
    intro i h
    simp at h
  | cons d rest ih =>
    intro i h hm hprev
    match i with
    | 0 =>
      simp only [List.get] at hm ⊢
      simp only [match_opcode, if_pos hm]
    | Nat.succ i =>
      have hd : ¬(raw &&& d.2.1 = d.1) := by
        have := hprev 0 (by simp) (by omega)
        simpa [List.get] using this
      have hm2 : raw &&& (rest.get ⟨i, by simpa using h⟩).2.1
          = (rest.get ⟨i, by simpa using h⟩).1 := by
        simpa [List.get] using hm
      have hprev2 : ∀ (j : Nat) (hj : j < rest.length), j < i →
          ¬(raw &&& (rest.get ⟨j, hj⟩).2.1 = (rest.get ⟨j, hj⟩).1) := by
        intro j hj hji
        have := hprev (j + 1) (by simpa using hj) (by omega)
        simpa [List.get] using this
      simp only [match_opcode, if_neg hd, List.get]
      exact ih i (by simpa using h) hm2 hprev2

theorem match_opcode_none (raw : Nat) :
    ∀ l : List (Nat × Nat × OpTag), (∀ d ∈ l, ¬(raw &&& d.2.1 = d.1)) →
      match_opcode l raw = none := by
  intro l
  induction l with
  | nil => intro; rfl
  | cons d rest ih =>
    intro h
    have hd : ¬(raw &&& d.2.1 = d.1) := h d (by simp)
    simp only [match_opcode, if_neg hd]
    exact ih fun e he => h e (by simp [he])

/-- Claim C4: a raw instruction matching a registered descriptor under its
mask dispatches to the first matching descriptor's handler in registration
order; a raw instruction matching no descriptor makes `step` fail with the
fatal unimplemented-opcode condition carrying the raw value. -/
theorem dispatch_first_match_and_fallback :
    (∀ (raw i : Nat) (h : i < OPCODE_DESCS.length),
      raw &&& (OPCODE_DESCS.get ⟨i, h⟩).2.1 = (OPCODE_DESCS.get ⟨i, h⟩).1 →
      (∀ (j : Nat) (hj : j < OPCODE_DESCS.length), j < i →
        ¬(raw &&& (OPCODE_DESCS.get ⟨j, hj⟩).2.1 = (OPCODE_DESCS.get ⟨j, hj⟩).1)) →
      match_opcode OPCODE_DESCS raw = some (OPCODE_DESCS.get ⟨i, h⟩).2.2) ∧
    (∀ (c : Cpu) (raw : Nat),
      read_word c.mem c.regfile.pc = some raw →
      (∀ d ∈ OPCODE_DESCS, ¬(raw &&& d.2.1 = d.1)) →
      step c = .error (.unimplementedOpcode raw)) := by
  constructor
  · intro raw i h hm hprev
    exact match_opcode_first raw OPCODE_DESCS i h hm hprev
  · intro c raw hread hnone
    simp only [step, hread, match_opcode_none raw OPCODE_DESCS hnone]

/-- Witness for C4: 0x00E0 dispatches to the cls handler (descriptor 0), and
the unregistered rnd-class instruction 0xC000 makes `step` fail fatally with
the raw value. -/
theorem dispatch_first_match_and_fallback_witness :
    match_opcode OPCODE_DESCS 0x00E0 = some OpTag.cls ∧
    step (coreNewCpu [0xC0, 0x00]) = .error (.unimplementedOpcode 0xC000) :=
  ⟨dispatch_first_match_and_fallback.1 0x00E0 0 (by decide) (by decide)
      (fun j hj hji => by omega),
   dispatch_first_match_and_fallback.2 (coreNewCpu [0xC0, 0x00]) 0xC000
      (by decide) (by decide)⟩

/-- Claim C2 (code bug evidence): the dispatch table registers only 31
descriptors and exactly four of the 35 documented instruction forms — SYS
(0x0nnn), RND (0xCxkk), LD ST,Vx (0xFx18) and LD F,Vx (0xFx29) — have a
representative instruction that dispatches to the fatal fallback instead of
an implementing handler; executing the RND representative makes `step` fail
fatally. -/
theorem documented_opcode_coverage_gap :
    DOCUMENTED_FORMS.length = 35 ∧ OPCODE_DESCS.length = 31 ∧
    (DOCUMENTED_FORMS.filter
        (fun f => (match_opcode OPCODE_DESCS f.1).isNone)).map Prod.fst
      = [0x0000, 0xC000, 0xF018, 0xF029] ∧
    step (coreNewCpu [0xC0, 0x4B]) = .error (.unimplementedOpcode 0xC04B) := by
  refine ⟨by decide, by decide, by decide, by rfl⟩

/-! ### Claim C9 -/

/-- Claim C9: a step that dispatches to the ldv_key handler (Fx0A) returns
the Wait-for-key event and leaves the whole CPU state unchanged — pc is
rewound by 2 back to its pre-step value, and no register, memory byte,
display pixel, stack entry or timer is touched. -/
theorem ldv_key_step_effect (c : Cpu) (raw : Nat)
    (hpc : c.regfile.pc < 65536)
    (hread : read_word c.mem c.regfile.pc = some raw)
    (hdisp : match_opcode OPCODE_DESCS raw = some OpTag.ldv_key) :
    step c = .ok (c, some CpuEvent.WaitForKey) := by
  have hrw : ((c.regfile.pc + 2) % 65536 + 65536 - 2) % 65536 = c.regfile.pc := by
    omega
  simp only [step, hread, hdisp, runHandler, ldv_key, advance_pc, hrw]

/-- Witness for C9: a freshly initialized machine whose program is the
single instruction 0xF10A steps to an identical state with a Wait-for-key
event. -/
theorem ldv_key_step_effect_witness :
    step (coreNewCpu [0xF1, 0x0A]) = .ok (coreNewCpu [0xF1, 0x0A], some CpuEvent.WaitForKey) :=
  ldv_key_step_effect (coreNewCpu [0xF1, 0x0A]) 0xF10A (by decide) (by decide) (by decide)

/-! ### Claim C6: double-draw -/

theorem drwPairStep_shape (m : Mem) (ix x y : Nat) (acc : Disp × Bool) (p : Nat × Nat) :
    drwPairStep m ix x y acc p =
      (Function.update acc.1 (pixIdx x y p) (acc.1 (pixIdx x y p) ^^^ pixVal m ix p),
       acc.2 || (pixVal m ix p &&& acc.1 (pixIdx x y p) == COLOR_WHITE)) :=
  rfl

theorem drwPairStep_display (m : Mem) (ix x y : Nat) (acc : Disp × Bool) (p : Nat × Nat)
    (co : Nat) :
    (drwPairStep m ix x y acc p).1 co
      = acc.1 co ^^^ (if pixIdx x y p = co then pixVal m ix p else 0) := by
  rw [drwPairStep_shape]
  dsimp only
  by_cases h : co = pixIdx x y p
  · subst h
    rw [Function.update_same, if_pos rfl]
  · rw [Function.update_noteq h, if_neg (fun e => h e.symm), Nat.xor_zero]

theorem foldl_drwRow_eq (m : Mem) (ix x y : Nat) :
    ∀ (l : List Nat) (acc : Disp × Bool),
      l.foldl (drwRow m ix x y) acc
        = (l.flatMap fun n => (List.range 8).map fun i => (n, i)).foldl
            (drwPairStep m ix x y) acc := by
  intro l
  induction l with
  | nil => intro acc; rfl
  | cons n l ih =>
    intro acc
    simp only [List.foldl_cons, List.flatMap_cons, List.foldl_append]
    rw [ih]
    congr 1

theorem foldl_drw_delta (m : Mem) (ix x y : Nat) :
    ∀ (L : List (Nat × Nat)) (acc1 acc2 : Disp × Bool) (co : Nat),
      (L.foldl (drwPairStep m ix x y) acc1).1 co ^^^ acc1.1 co
        = (L.foldl (drwPairStep m ix x y) acc2).1 co ^^^ acc2.1 co := by
  intro L
  induction L with
  | nil =>
    intro acc1 acc2 co
    simp [Nat.xor_self]
  | cons p L ih =>
    intro acc1 acc2 co
    have h := ih (drwPairStep m ix x y acc1 p) (drwPairStep m ix x y acc2 p) co
    rw [drwPairStep_display, drwPairStep_display, ← Nat.xor_assoc, ← Nat.xor_assoc] at h
    have h2 := congrArg (fun t => t ^^^ (if pixIdx x y p = co then pixVal m ix p else 0)) h
    simpa only [List.foldl_cons, Nat.xor_assoc, Nat.xor_self, Nat.xor_zero] using h2

theorem foldl_drw_untouched (m : Mem) (ix x y : Nat) :
    ∀ (L : List (Nat × Nat)) (acc : Disp × Bool) (co : Nat),
      (∀ p ∈ L, pixIdx x y p ≠ co) →
      (L.foldl (drwPairStep m ix x y) acc).1 co = acc.1 co := by
  intro L
  induction L with
  | nil => intro acc co _; rfl
  | cons p L ih =>
    intro acc co h
    simp only [List.foldl_cons]
    rw [ih _ co (fun q hq => h q (by simp [hq]))]
    rw [drwPairStep_display, if_neg (h p (by simp)), Nat.xor_zero]

theorem foldl_drw_cell (m : Mem) (ix x y : Nat) :
    ∀ (L : List (Nat × Nat)) (acc : Disp × Bool) (p : Nat × Nat),
      L.Pairwise (fun a b => pixIdx x y a ≠ pixIdx x y b) → p ∈ L →
      (L.foldl (drwPairStep m ix x y) acc).1 (pixIdx x y p)
        = acc.1 (pixIdx x y p) ^^^ pixVal m ix p := by
  intro L
  induction L with
  | nil => intro acc p _ hp; simp at hp
  | cons q L ih =>
    intro acc p hpw hp
    rw [List.pairwise_cons] at hpw
    obtain ⟨hq, hL⟩ := hpw
    rcases List.mem_cons.mp hp with rfl | hpL
    · simp only [List.foldl_cons]
      rw [foldl_drw_untouched m ix x y L _ _ (fun b hb => (hq b hb).symm)]
      rw [drwPairStep_display, if_pos rfl]
    · simp only [List.foldl_cons]
      rw [ih _ p hL hpL, drwPairStep_display, if_neg (hq p hpL), Nat.xor_zero]

theorem list_any_congr {α : Type} (l : List α) (f g : α → Bool)
    (h : ∀ a ∈ l, f a = g a) : l.any f = l.any g := by
  induction l with
  | nil => rfl
  | cons a t ih =>
    simp only [List.any_cons]
    rw [h a (by simp), ih fun b hb => h b (by simp [hb])]

theorem foldl_drw_collision (m : Mem) (ix x y : Nat) :
    ∀ (L : List (Nat × Nat)) (acc : Disp × Bool),
      L.Pairwise (fun a b => pixIdx x y a ≠ pixIdx x y b) →
      (L.foldl (drwPairStep m ix x y) acc).2
        = (acc.2 || L.any fun p => pixVal m ix p &&& acc.1 (pixIdx x y p) == COLOR_WHITE) := by
  intro L
  induction L with
  | nil => intro acc _; simp
  | cons q L ih =>
    intro acc hpw
    rw [List.pairwise_cons] at hpw
    obtain ⟨hq, hL⟩ := hpw
    simp only [List.foldl_cons, List.any_cons]
    rw [ih _ hL]
    have hdisp : ∀ p ∈ L,
        (pixVal m ix p &&& (drwPairStep m ix x y acc q).1 (pixIdx x y p) == COLOR_WHITE)
          = (pixVal m ix p &&& acc.1 (pixIdx x y p) == COLOR_WHITE) := by
      intro p hp
      rw [drwPairStep_display, if_neg (hq p hp), Nat.xor_zero]
    rw [list_any_congr _ _ _ hdisp, drwPairStep_shape]
    simp [Bool.or_assoc]

theorem drwPairs_mem (rows : Nat) (p : Nat × Nat) :
    p ∈ drwPairs rows ↔ p.1 < rows ∧ p.2 < 8 := by
  simp only [drwPairs, List.mem_flatMap, List.mem_map, List.mem_range]
  constructor
  · rintro ⟨a, ha, i, hi, rfl⟩
    exact ⟨ha, hi⟩
  · rintro ⟨h1, h2⟩
    exact ⟨p.1, h1, p.2, h2, rfl⟩

theorem drwPairs_pairwise (x y rows : Nat) (hrows : rows ≤ 16) :
    (drwPairs rows).Pairwise (fun a b => pixIdx x y a ≠ pixIdx x y b) := by
  induction rows with
  | zero => simp [drwPairs]
  | succ r ih =>
    have hsplit : drwPairs (r + 1)
        = drwPairs r ++ (List.range 8).map fun i => (r, i) := by
      simp [drwPairs, List.range_succ]
    rw [hsplit, List.pairwise_append]
    refine ⟨ih (by omega), ?_, ?_⟩
    · rw [List.pairwise_map]
      refine List.Pairwise.imp_of_mem ?_ (List.pairwise_lt_range 8)
      intro a b ha hb hab
      rw [List.mem_range] at ha hb
      simp only [pixIdx, DISPLAY_WIDTH, DISPLAY_HEIGHT]
      omega
    · intro a ha b hb
      rw [drwPairs_mem] at ha
      rw [List.mem_map] at hb
      obtain ⟨i, hi, rfl⟩ := hb
      rw [List.mem_range] at hi
      simp only [pixIdx, DISPLAY_WIDTH, DISPLAY_HEIGHT]
      have h1 : a.1 < r := ha.1
      omega

theorem pixVal_cases (m : Mem) (ix : Nat) (p : Nat × Nat) :
    pixVal m ix p = 0 ∨ pixVal m ix p = COLOR_WHITE := by
  unfold pixVal
  rw [Nat.and_one_is_mod]
  rcases Nat.mod_two_eq_zero_or_one (reverseBits8 (read_byte m ((ix + p.1) % 65536)) >>> p.2)
    with h | h
  · rw [h]
    left
    rfl
  · rw [h]
    right
    simp

theorem drw_ok (c : Cpu) (raw : Nat) :
    drw c raw = .ok (drwOut c raw, some CpuEvent.Draw) := rfl

theorem drwOut_fields (c : Cpu) (raw : Nat) :
    drwOut c raw =
      { c with
        display := ((drwPairs (opN raw)).foldl
          (drwPairStep c.mem c.regfile.index (c.regfile.gprs (opX raw))
            (c.regfile.gprs (opY raw))) (c.display, false)).1
        regfile := { c.regfile with
          gprs := Function.update c.regfile.gprs VF
            (if ((drwPairs (opN raw)).foldl
                (drwPairStep c.mem c.regfile.index (c.regfile.gprs (opX raw))
                  (c.regfile.gprs (opY raw))) (c.display, false)).2
             then 1 else 0) } } := by
  simp only [drwOut, drw, foldl_drwRow_eq, drwPairs]

theorem fold_restore (m : Mem) (ix x y : Nat) (L : List (Nat × Nat)) (d : Disp) (co : Nat) :
    (L.foldl (drwPairStep m ix x y)
        ((L.foldl (drwPairStep m ix x y) (d, false)).1, false)).1 co = d co := by
  have h := foldl_drw_delta m ix x y L
    ((L.foldl (drwPairStep m ix x y) (d, false)).1, false) (d, false) co
  dsimp only at h
  have h2 := congrArg (fun t => t ^^^ (L.foldl (drwPairStep m ix x y) (d, false)).1 co) h
  dsimp only at h2
  rw [Nat.xor_cancel_right] at h2
  rw [Nat.xor_comm ((L.foldl (drwPairStep m ix x y) (d, false)).1 co) (d co)] at h2
  rw [Nat.xor_cancel_right] at h2
  exact h2

theorem fold_second_collision (m : Mem) (ix x y : Nat) (L : List (Nat × Nat)) (d : Disp)
    (hpw : L.Pairwise fun a b => pixIdx x y a ≠ pixIdx x y b)
    (hbin : ∀ i, d i = 0 ∨ d i = COLOR_WHITE) :
    ((L.foldl (drwPairStep m ix x y)
        ((L.foldl (drwPairStep m ix x y) (d, false)).1, false)).2 = true
      ↔ ∃ p ∈ L, pixVal m ix p = COLOR_WHITE ∧ d (pixIdx x y p) = 0) := by
  rw [foldl_drw_collision m ix x y L _ hpw]
  simp only [Bool.false_or, List.any_eq_true, beq_iff_eq]
  constructor
  · rintro ⟨p, hp, hhit⟩
    refine ⟨p, hp, ?_⟩
    have hcell := foldl_drw_cell m ix x y L (d, false) p hpw hp
    dsimp only at hcell hhit
    rw [hcell] at hhit
    rcases pixVal_cases m ix p with h0 | h1
    · rw [h0, Nat.zero_and] at hhit
      exact absurd hhit (by decide)
    · rcases hbin (pixIdx x y p) with hd | hd
      · exact ⟨h1, hd⟩
      · rw [h1, hd, Nat.xor_self, Nat.and_zero] at hhit
        exact absurd hhit (by decide)
  · rintro ⟨p, hp, hw, hd⟩
    refine ⟨p, hp, ?_⟩
    have hcell := foldl_drw_cell m ix x y L (d, false) p hpw hp
    dsimp only at hcell ⊢
    rw [hcell, hw, hd, Nat.zero_xor, Nat.and_self]

/-- Claim C6 amended: for every index register value, sprite height and
coordinate registers other than VF itself, and any framebuffer whose cells
are each off (0) or on (COLOR_WHITE), executing drw twice in succession
restores the framebuffer exactly, and the second draw sets VF to 1 iff some
set sprite pixel lands on a cell that was off before the first draw (not
merely whenever the sprite has a set pixel). -/
theorem drw_double_xor (c : Cpu) (raw : Nat)
    (hx : opX raw ≠ VF) (hy : opY raw ≠ VF)
    (hbin : ∀ i, c.display i = 0 ∨ c.display i = COLOR_WHITE) :
    DrwDoubleSpec c raw := by
  have hc1 := drwOut_fields c raw
  have hmem : (drwOut c raw).mem = c.mem := by rw [hc1]
  have hidx : (drwOut c raw).regfile.index = c.regfile.index := by rw [hc1]
  have hgx : (drwOut c raw).regfile.gprs (opX raw) = c.regfile.gprs (opX raw) := by
    rw [hc1]
    exact Function.update_noteq hx _ _
  have hgy : (drwOut c raw).regfile.gprs (opY raw) = c.regfile.gprs (opY raw) := by
    rw [hc1]
    exact Function.update_noteq hy _ _
  have hd1 : (drwOut c raw).display = ((drwPairs (opN raw)).foldl
      (drwPairStep c.mem c.regfile.index (c.regfile.gprs (opX raw))
        (c.regfile.gprs (opY raw))) (c.display, false)).1 := by
    rw [hc1]
  have hc2 := drwOut_fields (drwOut c raw) raw
  rw [hmem, hidx, hgx, hgy, hd1] at hc2
  have hrows : opN raw ≤ 16 := by
    rw [opN_eq]
    omega
  have hpw := drwPairs_pairwise (c.regfile.gprs (opX raw)) (c.regfile.gprs (opY raw))
    (opN raw) hrows
  refine ⟨drw_ok c raw, drw_ok (drwOut c raw) raw, ?_, ?_⟩
  · rw [hc2]
    dsimp only
    funext co
    exact fold_restore c.mem c.regfile.index _ _ _ c.display co
  · rw [hc2]
    dsimp only
    rw [Function.update_same]
    split_ifs with hb
    · constructor
      · intro _
        exact (fold_second_collision c.mem c.regfile.index _ _ _ c.display hpw hbin).mp hb
      · intro _
        rfl
    · constructor
      · intro h01
        exact absurd h01 (by decide)
      · intro hex
        exact absurd
          ((fold_second_collision c.mem c.regfile.index _ _ _ c.display hpw hbin).mpr hex) hb

/-- Claim C6 counterexample: with the sprite 0x80 (one set pixel) drawn
twice at (0,0) over a framebuffer whose target cell is already on, the
second draw's collision flag is 0 — not 1 as the claim demands whenever the
sprite has a set pixel. -/
theorem drw_double_vf_cex :
    read_byte drwCexCpu.mem drwCexCpu.regfile.index = 0x80 ∧
    (drwOut (drwOut drwCexCpu 0xD011) 0xD011).regfile.gprs VF = 0 := by
  constructor
  · decide
  · decide

/-- Witness for the amended C6 at the concrete machine. -/
theorem drw_double_xor_witness :
    (opX 0xD011 ≠ VF ∧ opY 0xD011 ≠ VF ∧
      (∀ i, drwCexCpu.display i = 0 ∨ drwCexCpu.display i = COLOR_WHITE)) ∧
    DrwDoubleSpec drwCexCpu 0xD011 :=
  ⟨⟨by decide, by decide, fun i => by by_cases h : i = 0 <;> simp [drwCexCpu, h]⟩,
   drw_double_xor drwCexCpu 0xD011 (by decide) (by decide)
     (fun i => by by_cases h : i = 0 <;> simp [drwCexCpu, h])⟩

end Myuchip
